import Mathlib

/-!
Verification development for the AIAccountant repository.

The repository is a receipt-ingestion assistant: an LLM extracts structured
fields from receipt text, a validation layer (`GroqClient._validate_response`
in `src/utils/groq_client.py`) repairs malformed LLM replies, and confirmed
records are persisted through `src/utils/snowflake_helpers.py` /
`src/utils/snowflake_conn.py`.  Analytics (quality score, questionable
transactions, spending aggregation) live in `snowflake_helpers.py`.

Modelling conventions:
* Python floats are modelled as rationals (ℚ).  NaN / infinity and
  floating-point rounding are outside the model.
* Decoded JSON values are modelled by the inductive `JValue`; a decoded JSON
  object is an association list `JObj` (Python dicts have unique keys; lookup
  returns the first binding).
* Python exceptions are modelled with `Except`: a validation step that raises
  returns `Except.error v` carrying the state of the `validated` dict at the
  moment the exception escapes, mirroring the `except Exception: return
  validated` handler at the end of `_validate_response`.
* `str()` applied to a non-string scalar is rendered by `pyStr`; the exact
  rendering of numbers and composite values approximates CPython's text (no
  verified property depends on that text, only on whether it is a member of
  the category enum or parses as a date, which it never is for non-strings).
-/

/-- Decoded JSON values (the shape `json.loads` produces). -/
inductive JValue : Type
  | null : JValue
  | bool : Bool → JValue
  | num : ℚ → JValue
  | str : String → JValue
  | arr : List JValue → JValue
  | obj : List (String × JValue) → JValue

/-- A decoded JSON object: association list with Python-dict lookup. -/
def JObj : Type := List (String × JValue)

/-- Python `d[k]` / `k in d`: first binding for the key, if any. -/
def jlookup (k : String) : List (String × JValue) → Option JValue
  | [] => none
  | (k', v) :: rest => if k' = k then some v else jlookup k rest

/-- Python `d.get(k, default)`. -/
def jgetD (d : List (String × JValue)) (k : String) (dflt : JValue) : JValue :=
  match jlookup k d with
  | some v => v
  | none => dflt

/-- The two Python exception classes that `_validate_response` distinguishes:
`ValueError` is swallowed by the inner `except ValueError` of the date branch,
any other exception (e.g. `TypeError` from `float(None)`) escapes to the outer
handler. -/
inductive PyErr : Type
  | valueError : PyErr
  | typeError : PyErr
deriving DecidableEq

/-- Digits of a decimal string, most significant first, folded to a `Nat`. -/
def digitsToNat (cs : List Char) : Nat :=
  cs.foldl (fun n c => 10 * n + (c.toNat - 48)) 0

/-- Python `float(s)` on a string: optional surrounding whitespace, optional
sign, decimal digits with at most one dot, at least one digit.  (Exponents,
`inf` and `nan` are omitted from the model; no claim feeds them.) -/
def strToRat (s : String) : Option ℚ :=
  let cs := s.trim.toList
  let (sign, cs) : ℚ × List Char :=
    match cs with
    | '-' :: rest => (-1, rest)
    | '+' :: rest => (1, rest)
    | _ => (1, cs)
  let intPart := cs.takeWhile Char.isDigit
  let rest := cs.dropWhile Char.isDigit
  match rest with
  | [] =>
      if intPart.isEmpty then none
      else some (sign * (digitsToNat intPart : ℚ))
  | '.' :: frac =>
      if frac.all Char.isDigit ∧ ¬(intPart.isEmpty ∧ frac.isEmpty) then
        some (sign * ((digitsToNat intPart : ℚ) +
          (digitsToNat frac : ℚ) / (10 : ℚ) ^ frac.length))
      else none
  | _ => none

/-- Python `float(x)` on a decoded JSON value.  Numbers and booleans coerce,
numeric strings parse (else `ValueError`), anything else is a `TypeError`. -/
def pyFloatE : JValue → Except PyErr ℚ
  | JValue.num q => Except.ok q
  | JValue.bool b => Except.ok (if b then 1 else 0)
  | JValue.str s =>
      match strToRat s with
      | some q => Except.ok q
      | none => Except.error PyErr.valueError
  | _ => Except.error PyErr.typeError

/-- Python `str(x)` on a decoded JSON value.  Total.  The rendering of
numbers and composite values approximates CPython; no verified property
depends on that text. -/
def pyStr : JValue → String
  | JValue.str s => s
  | JValue.num q => if q.den = 1 then toString q.num else toString q
  | JValue.bool b => if b then "True" else "False"
  | JValue.null => "None"
  | JValue.arr _ => "<list>"
  | JValue.obj _ => "<dict>"

/-- Python `int(x)` on a decoded JSON value: truncation toward zero for
numbers, booleans coerce, integer strings parse (else `ValueError`),
anything else `TypeError`. -/
def pyIntE : JValue → Except PyErr ℤ
  | JValue.num q => Except.ok (Int.tdiv q.num (q.den : ℤ))
  | JValue.bool b => Except.ok (if b then 1 else 0)
  | JValue.str s =>
      let cs := s.trim.toList
      let (sign, ds) : ℤ × List Char :=
        match cs with
        | '-' :: rest => (-1, rest)
        | '+' :: rest => (1, rest)
        | _ => (1, cs)
      if ¬ds.isEmpty ∧ ds.all Char.isDigit then
        Except.ok (sign * (digitsToNat ds : ℤ))
      else Except.error PyErr.valueError
  | _ => Except.error PyErr.typeError

/-- Leap year rule used by `datetime`. -/
def isLeap (y : Nat) : Bool :=
  (y % 4 == 0 && y % 100 != 0) || (y % 400 == 0)

/-- Days in a month for `datetime` validity checking. -/
def daysInMonth (y m : Nat) : Nat :=
  if m = 2 then (if isLeap y then 29 else 28)
  else if m = 4 ∨ m = 6 ∨ m = 9 ∨ m = 11 then 30
  else 31

/-- Split a character list on `'-'` (the field separators of the
`%Y-%m-%d` format). -/
def splitOnDash : List Char → List (List Char)
  | [] => [[]]
  | c :: rest =>
      if c = '-' then [] :: splitOnDash rest
      else
        match splitOnDash rest with
        | g :: gs => (c :: g) :: gs
        | [] => [[c]]

/-- Python `datetime.strptime(s, "%Y-%m-%d")` success: exactly four year
digits, one or two month digits (1–12), one or two day digits valid for that
month, nothing left over. -/
def parseYMD (s : String) : Bool :=
  match splitOnDash s.toList with
  | [yl, ml, dl] =>
      yl.length == 4 && yl.all Char.isDigit &&
      decide (1 ≤ ml.length) && ml.length ≤ 2 && ml.all Char.isDigit &&
      decide (1 ≤ dl.length) && dl.length ≤ 2 && dl.all Char.isDigit &&
      (let y := digitsToNat yl
       let m := digitsToNat ml
       let d := digitsToNat dl
       decide (1 ≤ y) && decide (1 ≤ m) && m ≤ 12 &&
       decide (1 ≤ d) && d ≤ daysInMonth y m)
  | _ => false

/-- Python `min(1.0, max(0, x))` — the confidence clamp used throughout
`_validate_response`. -/
def clamp01 (q : ℚ) : ℚ := min 1 (max 0 q)

/-- Value-confidence pair (numeric value) for the amount field. -/
structure NumField : Type where
  value : ℚ
  confidence : ℚ
deriving DecidableEq

/-- Value-confidence pair (string value) for merchant / date / category. -/
structure StrField : Type where
  value : String
  confidence : ℚ
deriving DecidableEq

/-- One entry of `line_items` after validation. -/
structure LineItem : Type where
  description : String
  amount : ℚ
  quantity : ℤ
deriving DecidableEq

/-- The validated receipt shape produced by `_validate_response` (all six
top-level keys are always present — in the model this is structural). -/
structure ReceiptExtraction : Type where
  amount : NumField
  merchant : StrField
  date : StrField
  category : StrField
  description : String
  line_items : List LineItem
deriving DecidableEq

/-- The initial `validated` dict of `_validate_response` (also the shape
`_error_response` returns). -/
def defaultExtraction (original_desc : String) : ReceiptExtraction :=
  { amount := ⟨0, 0⟩
    merchant := ⟨"", 0⟩
    date := ⟨"", 0⟩
    category := ⟨"Other", 0⟩
    description := original_desc
    line_items := [] }

/-- The closed category enum shared by extraction, validation and storage. -/
def valid_categories : List String :=
  ["Meals", "Travel", "Office", "Software", "Rent", "Utilities", "Other"]

/-- The `amount` branch of `_validate_response`.  `Except.error v` models an
exception escaping to the outer handler with the `validated` dict in state
`v` (the branch's dict assignment is atomic: it happens only after both
`float` coercions succeed). -/
def stepAmount (data : JObj) (v : ReceiptExtraction) :
    Except ReceiptExtraction ReceiptExtraction :=
  match jlookup "amount" data with
  | none => Except.ok v
  | some (JValue.obj a) =>
      match pyFloatE (jgetD a "value" (JValue.num 0)),
            pyFloatE (jgetD a "confidence" (JValue.num 0)) with
      | Except.ok val, Except.ok conf =>
          Except.ok { v with amount := ⟨val, clamp01 conf⟩ }
      | _, _ => Except.error v
  | some _ => Except.error v

/-- The `merchant` branch of `_validate_response`.  `str()` on the value is
total; only the confidence coercion can raise. -/
def stepMerchant (data : JObj) (v : ReceiptExtraction) :
    Except ReceiptExtraction ReceiptExtraction :=
  match jlookup "merchant" data with
  | none => Except.ok v
  | some (JValue.obj m) =>
      match pyFloatE (jgetD m "confidence" (JValue.num 0)) with
      | Except.ok conf =>
          Except.ok { v with merchant :=
            ⟨pyStr (jgetD m "value" (JValue.str "")), clamp01 conf⟩ }
      | Except.error _ => Except.error v
  | some _ => Except.error v

/-- The `date` branch of `_validate_response`.  `strptime` failure and a
`ValueError` from the confidence coercion are caught by the inner
`except ValueError: pass` (the date field keeps its default); a `TypeError`
escapes to the outer handler; a non-dict `data["date"]` raises before the
inner `try` is entered. -/
def stepDate (data : JObj) (v : ReceiptExtraction) :
    Except ReceiptExtraction ReceiptExtraction :=
  match jlookup "date" data with
  | none => Except.ok v
  | some (JValue.obj d) =>
      if parseYMD (pyStr (jgetD d "value" (JValue.str ""))) then
        match pyFloatE (jgetD d "confidence" (JValue.num 0)) with
        | Except.ok conf =>
            Except.ok { v with date :=
              ⟨pyStr (jgetD d "value" (JValue.str "")), clamp01 conf⟩ }
        | Except.error PyErr.valueError => Except.ok v
        | Except.error PyErr.typeError => Except.error v
      else Except.ok v
  | some _ => Except.error v

/-- The `category` branch of `_validate_response`: `str()` of the value is
checked against the closed enum and forced to `"Other"` outside it; the
confidence is coerced and clamped exactly as for the other fields. -/
def stepCategory (data : JObj) (v : ReceiptExtraction) :
    Except ReceiptExtraction ReceiptExtraction :=
  match jlookup "category" data with
  | none => Except.ok v
  | some (JValue.obj c) =>
      match pyFloatE (jgetD c "confidence" (JValue.num 0)) with
      | Except.ok conf =>
          Except.ok { v with category :=
            ⟨if pyStr (jgetD c "value" (JValue.str "Other")) ∈ valid_categories
              then pyStr (jgetD c "value" (JValue.str "Other")) else "Other",
             clamp01 conf⟩ }
      | Except.error _ => Except.error v
  | some _ => Except.error v

/-- Coerce one `line_items` entry; `none` models an exception (non-dict item
or failed coercion). -/
def coerceLineItem : JValue → Option LineItem
  | JValue.obj it =>
      match pyFloatE (jgetD it "amount" (JValue.num 0)),
            pyIntE (jgetD it "quantity" (JValue.num 1)) with
      | Except.ok amt, Except.ok qty =>
          some ⟨pyStr (jgetD it "description" (JValue.str "")), amt, qty⟩
      | _, _ => none
  | _ => none

/-- Coerce all `line_items` entries (the Python list comprehension builds the
whole list before assignment, so a failure anywhere discards everything). -/
def coerceLineItems : List JValue → Option (List LineItem)
  | [] => some []
  | it :: rest =>
      match coerceLineItem it, coerceLineItems rest with
      | some li, some lis => some (li :: lis)
      | _, _ => none

/-- The `line_items` branch of `_validate_response`: only a present list is
processed (`isinstance(data['line_items'], list)`); the comprehension either
replaces the whole field or raises with the field untouched. -/
def stepLineItems (data : JObj) (v : ReceiptExtraction) :
    Except ReceiptExtraction ReceiptExtraction :=
  match jlookup "line_items" data with
  | some (JValue.arr items) =>
      match coerceLineItems items with
      | some lis => Except.ok { v with line_items := lis }
      | none => Except.error v
  | _ => Except.ok v

/-- Sequencing of validation branches: an exception already in flight skips
the remaining branches (it travels straight to the outer handler), otherwise
the next branch runs on the current `validated` state. -/
def vstep (f : JObj → ReceiptExtraction → Except ReceiptExtraction ReceiptExtraction)
    (data : JObj) :
    Except ReceiptExtraction ReceiptExtraction →
    Except ReceiptExtraction ReceiptExtraction
  | Except.error v => Except.error v
  | Except.ok v => f data v

/-- Body of `_validate_response` as an exception-transparent computation:
`Except.ok v` is a normal return, `Except.error v` is an exception reaching
the outer `except Exception` handler with the `validated` dict in state `v`.
The branches run in source order: amount, merchant, date, category,
line_items. -/
def validate_responseE (data : JObj) (original_desc : String) :
    Except ReceiptExtraction ReceiptExtraction :=
  vstep stepLineItems data (vstep stepCategory data (vstep stepDate data
    (vstep stepMerchant data (stepAmount data
      (defaultExtraction original_desc)))))

/-- Function `GroqClient._validate_response`: the outer `except Exception` handler
returns the `validated` dict as it stood when the exception escaped, so the
function is total. -/
def validate_response (data : JObj) (original_desc : String) :
    ReceiptExtraction :=
  match validate_responseE data original_desc with
  | Except.ok v => v
  | Except.error v => v

/-- Confidence bound demanded by the spec's invariant. -/
def confOK (q : ℚ) : Prop := 0 ≤ q ∧ q ≤ 1

instance (q : ℚ) : Decidable (confOK q) := by
  unfold confOK; infer_instance

/-- Well-formedness of a validated receipt: every confidence in `[0,1]` and
the category value inside the closed enum. -/
def wfExtraction (v : ReceiptExtraction) : Prop :=
  confOK v.amount.confidence ∧ confOK v.merchant.confidence ∧
  confOK v.date.confidence ∧ confOK v.category.confidence ∧
  v.category.value ∈ valid_categories

instance (v : ReceiptExtraction) : Decidable (wfExtraction v) := by
  unfold wfExtraction; infer_instance

/-- The transaction dict built by `log_receipt_transaction` in
`src/utils/snowflake_helpers.py` and inserted by `log_transaction`
(`src/utils/snowflake_conn.py`).  In the repository every caller passes the
validated receipt shape, so the `.get` defaults and `float()` coercions of
the source are identities on this typed input; the `id` is the UUID
`log_transaction` generates when the dict carries none, passed here as a
parameter. -/
structure Transaction : Type where
  id : String
  date : String
  merchant : String
  merchant_confidence : ℚ
  description : String
  amount : ℚ
  amount_confidence : ℚ
  category : String
  category_confidence : ℚ
  date_confidence : ℚ
  is_reconciled : Bool
deriving DecidableEq

/-- Function `log_receipt_transaction` (`snowflake_helpers.py`): flattens a receipt
extraction into the transaction dict that is inserted.  Note: confidences and
category are copied verbatim — the function performs no clamping and no enum
check. -/
def log_receipt_transaction (r : ReceiptExtraction) (genId : String) :
    Transaction :=
  { id := genId
    date := r.date.value
    merchant := r.merchant.value
    merchant_confidence := r.merchant.confidence
    description := r.description
    amount := r.amount.value
    amount_confidence := r.amount.confidence
    category := r.category.value
    category_confidence := r.category.confidence
    date_confidence := r.date.confidence
    is_reconciled := false }

/-- Function `log_transaction` (`snowflake_conn.py`): the `db` argument models the
outcome of the connection + INSERT + commit; the `except` clause re-raises,
so a failure propagates to the caller as `Except.error`. -/
def log_transaction (t : Transaction) (db : Except String Unit) :
    Except String String :=
  match db with
  | Except.ok _ => Except.ok t.id
  | Except.error e => Except.error e

/-- One row of the transactions DataFrame returned by
`get_transactions_as_dataframe` (dates are modelled as day numbers, ℤ,
so that the timeframe filter `date ≥ now − window` is arithmetic). -/
structure TxnRow : Type where
  id : String
  date : ℤ
  merchant : String
  merchant_confidence : ℚ
  description : String
  amount : ℚ
  amount_confidence : ℚ
  category : String
  category_confidence : ℚ
  date_confidence : ℚ
  is_reconciled : Bool
deriving DecidableEq

/-- Function `get_transactions_as_dataframe` (`snowflake_conn.py`): the `db` argument
models the outcome of the connection + SELECT; the `except` clause swallows
the failure and returns an empty DataFrame. -/
def get_transactions_as_dataframe (db : Except String (List TxnRow)) :
    List TxnRow :=
  match db with
  | Except.ok rows => rows
  | Except.error _ => []

/-- The effect of the UPDATE statement of `update_transaction_category`
(`snowflake_conn.py`) on the matched row: category and category_confidence
are written verbatim (no clamping). -/
def update_transaction_category_row (t : TxnRow) (new_category : String)
    (confidence : ℚ) : TxnRow :=
  { t with category := new_category, category_confidence := confidence }

/-- Function `update_category_interactive` (`snowflake_helpers.py`): raises
`ValueError` when the new category is outside the closed enum, otherwise
performs the update.  The confidence argument is not checked. -/
def update_category_interactive (t : TxnRow) (new_category : String)
    (confidence : ℚ) : Except String TxnRow :=
  if new_category ∈ valid_categories then
    Except.ok (update_transaction_category_row t new_category confidence)
  else Except.error "Invalid category"

/-- Spec invariant on a persisted transaction (insert shape). -/
def txnOK (t : Transaction) : Prop :=
  confOK t.amount_confidence ∧ confOK t.merchant_confidence ∧
  confOK t.category_confidence ∧ confOK t.date_confidence ∧
  t.category ∈ valid_categories

instance (t : Transaction) : Decidable (txnOK t) := by
  unfold txnOK; infer_instance

/-- Spec invariant on a persisted transaction (row shape). -/
def rowOK (t : TxnRow) : Prop :=
  confOK t.amount_confidence ∧ confOK t.merchant_confidence ∧
  confOK t.category_confidence ∧ confOK t.date_confidence ∧
  t.category ∈ valid_categories

instance (t : TxnRow) : Decidable (rowOK t) := by
  unfold rowOK; infer_instance

/-- The quality-score column added by `get_recent_transactions`
(`snowflake_helpers.py`), written in the source's operand order. -/
def quality_score (t : TxnRow) : ℚ :=
  t.amount_confidence * (0.4 : ℚ) +
  t.category_confidence * (0.3 : ℚ) +
  t.merchant_confidence * (0.2 : ℚ) +
  t.date_confidence * (0.1 : ℚ)

/-- Function `get_recent_transactions`: every read of the transaction list recomputes
the quality score per row (the DataFrame column becomes the second
component). -/
def addQualityScores (rows : List TxnRow) : List (TxnRow × ℚ) :=
  rows.map (fun t => (t, quality_score t))

/-- The row predicate of `get_questionable_transactions`: any of the three
named confidences strictly below the threshold. -/
def questionableFilter (threshold : ℚ) (t : TxnRow) : Bool :=
  decide (t.amount_confidence < threshold) ||
  decide (t.category_confidence < threshold) ||
  decide (t.merchant_confidence < threshold)

/-- Function `get_questionable_transactions` (`snowflake_helpers.py`): boolean-mask
filter then `sort_values('amount_confidence')` (ascending). -/
def get_questionable_transactions (rows : List TxnRow) (threshold : ℚ) :
    List TxnRow :=
  (rows.filter (questionableFilter threshold)).mergeSort
    (fun a b => decide (a.amount_confidence ≤ b.amount_confidence))

/-- Product `amount * amount_confidence`, the `weighted_amount` column of
`get_spending_analytics`. -/
def weighted_amount (t : TxnRow) : ℚ := t.amount * t.amount_confidence

/-- The keys of a pandas `groupby` over the rows (distinct values in first
appearance order; pandas sorts keys, but no verified property depends on the
key order of the group dictionaries). -/
def groupKeys (rows : List TxnRow) (f : TxnRow → String) : List String :=
  (rows.map f).dedup

/-- Aggregation `df.groupby(f).sum()` over the weighted amounts, as an
association list. -/
def groupWeightedSums (rows : List TxnRow) (f : TxnRow → String) :
    List (String × ℚ) :=
  (groupKeys rows f).map
    (fun k => (k, ((rows.filter (fun t => f t = k)).map weighted_amount).sum))

/-- The dictionary returned by `TransactionManager.get_spending_analytics`. -/
structure Analytics : Type where
  by_category : List (String × ℚ)
  by_merchant : List (String × ℚ)
  total : ℚ
  timeframe : String

/-- The timeframe window of `get_spending_analytics`: an unrecognized
timeframe leaves the frame unfiltered (the `if/elif` chain has no `else`). -/
def timeframeFilter (rows : List TxnRow) (timeframe : String) (now : ℤ) :
    List TxnRow :=
  if timeframe = "week" then rows.filter (fun t => decide (now - 7 ≤ t.date))
  else if timeframe = "month" then
    rows.filter (fun t => decide (now - 30 ≤ t.date))
  else if timeframe = "quarter" then
    rows.filter (fun t => decide (now - 90 ≤ t.date))
  else rows

/-- Method `TransactionManager.get_spending_analytics` (`snowflake_helpers.py`):
empty frame short-circuits to `{}` (modelled as `none`); otherwise filter by
timeframe, weight each row by `amount * amount_confidence`, aggregate by
category, by merchant (sorted descending on the sum, first 10 kept), and the
grand total. -/
def get_spending_analytics (rows : List TxnRow) (timeframe : String)
    (now : ℤ) : Option Analytics :=
  if rows.isEmpty then none
  else
    let df := timeframeFilter rows timeframe now
    some
      { by_category := groupWeightedSums df (fun t => t.category)
        by_merchant :=
          ((groupWeightedSums df (fun t => t.merchant)).mergeSort
            (fun p q => decide (q.2 ≤ p.2))).take 10
        total := (df.map weighted_amount).sum
        timeframe := timeframe }

/-- Concrete malformed reply for the C2 counterexample: the amount branch
succeeds, then `float(None)` in the merchant branch raises `TypeError`. -/
def cexC2data : JObj :=
  [("amount", JValue.obj
      [("value", JValue.num 5), ("confidence", JValue.num 1)]),
   ("merchant", JValue.obj
      [("value", JValue.str "M"), ("confidence", JValue.null)])]

/-- The partially-validated state returned for `cexC2data`. -/
def cexC2res : ReceiptExtraction :=
  { amount := ⟨5, 1⟩
    merchant := ⟨"", 0⟩
    date := ⟨"", 0⟩
    category := ⟨"Other", 0⟩
    description := "t"
    line_items := [] }

/-- Unknown category with out-of-range confidence for the C4
counterexample. -/
def cexC4data : JObj :=
  [("category", JValue.obj
      [("value", JValue.str "Cafe"), ("confidence", JValue.num 2)])]

/-- Unknown category with in-range confidence 0.9 (the spec's own example)
for the C4 witness. -/
def cexC4wdata : JObj :=
  [("category", JValue.obj
      [("value", JValue.str "Cafe"), ("confidence", JValue.num (9/10))])]

/-- Unparseable date with nonzero confidence (the spec's own example) for
the C5 witness. -/
def cexC5data : JObj :=
  [("date", JValue.obj
      [("value", JValue.str "13/01/2024"), ("confidence", JValue.num (9/10))])]

/-- A well-formed stored row used by the C3 counterexample and witnesses. -/
def sampleRow : TxnRow :=
  { id := "tx1"
    date := 0
    merchant := "Acme"
    merchant_confidence := 1
    description := "d"
    amount := 10
    amount_confidence := 1
    category := "Meals"
    category_confidence := 1
    date_confidence := 1
    is_reconciled := false }

/-- A well-formed receipt extraction used by the C3 witness. -/
def sampleReceipt : ReceiptExtraction :=
  { amount := ⟨10, 1⟩
    merchant := ⟨"Acme", 1⟩
    date := ⟨"2024-01-15", 1⟩
    category := ⟨"Meals", 1⟩
    description := "d"
    line_items := [] }

/-- A small concrete row list for the C6 and C8 witnesses. -/
def sampleRows : List TxnRow :=
  [sampleRow,
   { sampleRow with
     id := "tx2"
     date := 50
     merchant := "Beta"
     amount := 20
     amount_confidence := 1/2
     category := "Travel" }]

lemma clamp01_confOK (q : ℚ) : confOK (clamp01 q) := by
  unfold confOK clamp01
  constructor
  · exact le_min (by norm_num) (le_max_left 0 q)
  · exact min_le_left 1 _

lemma wf_defaultExtraction (desc : String) :
    wfExtraction (defaultExtraction desc) := by
  unfold wfExtraction defaultExtraction confOK valid_categories
  norm_num

lemma stepAmount_error {data : JObj} {v w : ReceiptExtraction}
    (h : stepAmount data v = Except.error w) : w = v := by
  unfold stepAmount at h
  split at h
  · exact absurd h (by simp)
  · split at h
    · exact absurd h (by simp)
    · simpa [eq_comm] using h
  · simpa [eq_comm] using h

lemma stepAmount_ok {data : JObj} {v w : ReceiptExtraction}
    (h : stepAmount data v = Except.ok w) :
    (wfExtraction v → wfExtraction w) ∧ w.description = v.description ∧
    w.line_items = v.line_items ∧ w.date = v.date := by
  unfold stepAmount at h
  split at h
  · cases h
    exact ⟨id, rfl, rfl, rfl⟩
  · split at h
    · cases h
      unfold wfExtraction at *
      refine ⟨fun hwf => ⟨clamp01_confOK _, hwf.2.1, hwf.2.2.1,
        hwf.2.2.2.1, hwf.2.2.2.2⟩, rfl, rfl, rfl⟩
    · exact absurd h (by simp)
  · exact absurd h (by simp)

lemma stepMerchant_error {data : JObj} {v w : ReceiptExtraction}
    (h : stepMerchant data v = Except.error w) : w = v := by
  unfold stepMerchant at h
  split at h
  · exact absurd h (by simp)
  · split at h
    · exact absurd h (by simp)
    · simpa [eq_comm] using h
  · simpa [eq_comm] using h

lemma stepMerchant_ok {data : JObj} {v w : ReceiptExtraction}
    (h : stepMerchant data v = Except.ok w) :
    (wfExtraction v → wfExtraction w) ∧ w.description = v.description ∧
    w.line_items = v.line_items ∧ w.date = v.date := by
  unfold stepMerchant at h
  split at h
  · cases h
    exact ⟨id, rfl, rfl, rfl⟩
  · split at h
    · cases h
      unfold wfExtraction at *
      refine ⟨fun hwf => ⟨hwf.1, clamp01_confOK _, hwf.2.2.1,
        hwf.2.2.2.1, hwf.2.2.2.2⟩, rfl, rfl, rfl⟩
    · exact absurd h (by simp)
  · exact absurd h (by simp)

lemma stepDate_error {data : JObj} {v w : ReceiptExtraction}
    (h : stepDate data v = Except.error w) : w = v := by
  unfold stepDate at h
  split at h
  · exact absurd h (by simp)
  · split at h
    · split at h
      · exact absurd h (by simp)
      · exact absurd h (by simp)
      · simpa [eq_comm] using h
    · exact absurd h (by simp)
  · simpa [eq_comm] using h

lemma stepDate_ok {data : JObj} {v w : ReceiptExtraction}
    (h : stepDate data v = Except.ok w) :
    (wfExtraction v → wfExtraction w) ∧ w.description = v.description ∧
    w.line_items = v.line_items := by
  unfold stepDate at h
  split at h
  · cases h
    exact ⟨id, rfl, rfl⟩
  · split at h
    · split at h
      · cases h
        unfold wfExtraction at *
        refine ⟨fun hwf => ⟨hwf.1, hwf.2.1, clamp01_confOK _,
          hwf.2.2.2.1, hwf.2.2.2.2⟩, rfl, rfl⟩
      · cases h
        exact ⟨id, rfl, rfl⟩
      · exact absurd h (by simp)
    · cases h
      exact ⟨id, rfl, rfl⟩
  · exact absurd h (by simp)

lemma stepCategory_error {data : JObj} {v w : ReceiptExtraction}
    (h : stepCategory data v = Except.error w) : w = v := by
  unfold stepCategory at h
  split at h
  · exact absurd h (by simp)
  · split at h
    · exact absurd h (by simp)
    · simpa [eq_comm] using h
  · simpa [eq_comm] using h

lemma stepCategory_ok {data : JObj} {v w : ReceiptExtraction}
    (h : stepCategory data v = Except.ok w) :
    (wfExtraction v → wfExtraction w) ∧ w.description = v.description ∧
    w.line_items = v.line_items ∧ w.date = v.date := by
  unfold stepCategory at h
  split at h
  · cases h
    exact ⟨id, rfl, rfl, rfl⟩
  · split at h
    · cases h
      unfold wfExtraction at *
      refine ⟨fun hwf => ⟨hwf.1, hwf.2.1, hwf.2.2.1, clamp01_confOK _, ?_⟩,
        rfl, rfl, rfl⟩
      split
      · assumption
      · unfold valid_categories
        simp
    · exact absurd h (by simp)
  · exact absurd h (by simp)

lemma stepLineItems_error {data : JObj} {v w : ReceiptExtraction}
    (h : stepLineItems data v = Except.error w) : w = v := by
  unfold stepLineItems at h
  split at h
  · split at h
    · exact absurd h (by simp)
    · simpa [eq_comm] using h
  · exact absurd h (by simp)

lemma stepLineItems_ok {data : JObj} {v w : ReceiptExtraction}
    (h : stepLineItems data v = Except.ok w) :
    (wfExtraction v → wfExtraction w) ∧ w.description = v.description ∧
    w.date = v.date := by
  unfold stepLineItems at h
  split at h
  · split at h
    · cases h
      unfold wfExtraction at *
      exact ⟨fun hwf => hwf, rfl, rfl⟩
    · exact absurd h (by simp)
  · cases h
    exact ⟨id, rfl, rfl⟩

lemma stepDate_unparseable {data : JObj} {v : ReceiptExtraction}
    {d : List (String × JValue)}
    (hlook : jlookup "date" data = some (JValue.obj d))
    (hparse : parseYMD (pyStr (jgetD d "value" (JValue.str ""))) = false) :
    stepDate data v = Except.ok v := by
  unfold stepDate
  rw [hlook]
  simp [hparse]

lemma vstep_ok (f : JObj → ReceiptExtraction → Except ReceiptExtraction ReceiptExtraction)
    (data : JObj) (v : ReceiptExtraction) :
    vstep f data (Except.ok v) = f data v := rfl

lemma vstep_error (f : JObj → ReceiptExtraction → Except ReceiptExtraction ReceiptExtraction)
    (data : JObj) (v : ReceiptExtraction) :
    vstep f data (Except.error v) = Except.error v := rfl

lemma validateE_master (data : JObj) (desc : String) :
    (∀ r, validate_responseE data desc = Except.ok r →
        wfExtraction r ∧ r.description = desc) ∧
    (∀ r, validate_responseE data desc = Except.error r →
        wfExtraction r ∧ r.description = desc ∧ r.line_items = []) := by
  have hP0 : wfExtraction (defaultExtraction desc) ∧
      (defaultExtraction desc).description = desc ∧
      (defaultExtraction desc).line_items = ([] : List LineItem) :=
    ⟨wf_defaultExtraction desc, rfl, rfl⟩
  unfold validate_responseE
  cases h1 : stepAmount data (defaultExtraction desc) with
  | error v =>
      have hv : v = defaultExtraction desc := stepAmount_error h1
      subst hv
      simp only [vstep_error]
      refine ⟨fun r hr => absurd hr (by simp), fun r hr => ?_⟩
      injection hr with hr
      subst hr
      exact hP0
  | ok v1 =>
      obtain ⟨hw1, hd1, hl1, _⟩ := stepAmount_ok h1
      have hP1 : wfExtraction v1 ∧ v1.description = desc ∧
          v1.line_items = ([] : List LineItem) :=
        ⟨hw1 hP0.1, hd1.trans hP0.2.1, hl1.trans hP0.2.2⟩
      rw [vstep_ok]
      cases h2 : stepMerchant data v1 with
      | error v =>
          have hv : v = v1 := stepMerchant_error h2
          subst hv
          simp only [vstep_error]
          refine ⟨fun r hr => absurd hr (by simp), fun r hr => ?_⟩
          injection hr with hr
          subst hr
          exact hP1
      | ok v2 =>
          obtain ⟨hw2, hd2, hl2, _⟩ := stepMerchant_ok h2
          have hP2 : wfExtraction v2 ∧ v2.description = desc ∧
              v2.line_items = ([] : List LineItem) :=
            ⟨hw2 hP1.1, hd2.trans hP1.2.1, hl2.trans hP1.2.2⟩
          rw [vstep_ok]
          cases h3 : stepDate data v2 with
          | error v =>
              have hv : v = v2 := stepDate_error h3
              subst hv
              simp only [vstep_error]
              refine ⟨fun r hr => absurd hr (by simp), fun r hr => ?_⟩
              injection hr with hr
              subst hr
              exact hP2
          | ok v3 =>
              obtain ⟨hw3, hd3, hl3⟩ := stepDate_ok h3
              have hP3 : wfExtraction v3 ∧ v3.description = desc ∧
                  v3.line_items = ([] : List LineItem) :=
                ⟨hw3 hP2.1, hd3.trans hP2.2.1, hl3.trans hP2.2.2⟩
              rw [vstep_ok]
              cases h4 : stepCategory data v3 with
              | error v =>
                  have hv : v = v3 := stepCategory_error h4
                  subst hv
                  simp only [vstep_error]
                  refine ⟨fun r hr => absurd hr (by simp), fun r hr => ?_⟩
                  injection hr with hr
                  subst hr
                  exact hP3
              | ok v4 =>
                  obtain ⟨hw4, hd4, hl4, _⟩ := stepCategory_ok h4
                  have hP4 : wfExtraction v4 ∧ v4.description = desc ∧
                      v4.line_items = ([] : List LineItem) :=
                    ⟨hw4 hP3.1, hd4.trans hP3.2.1, hl4.trans hP3.2.2⟩
                  rw [vstep_ok]
                  cases h5 : stepLineItems data v4 with
                  | error v =>
                      have hv : v = v4 := stepLineItems_error h5
                      subst hv
                      refine ⟨fun r hr => absurd hr (by simp),
                        fun r hr => ?_⟩
                      injection hr with hr
                      subst hr
                      exact hP4
                  | ok v5 =>
                      obtain ⟨hw5, hd5, _⟩ := stepLineItems_ok h5
                      refine ⟨fun r hr => ?_,
                        fun r hr => absurd hr (by simp)⟩
                      injection hr with hr
                      subst hr
                      exact ⟨hw5 hP4.1, hd5.trans hP4.2.1⟩

lemma validate_response_of_ok {data : JObj} {desc : String}
    {r : ReceiptExtraction}
    (h : validate_responseE data desc = Except.ok r) :
    validate_response data desc = r := by
  unfold validate_response
  rw [h]

lemma validate_response_of_error {data : JObj} {desc : String}
    {r : ReceiptExtraction}
    (h : validate_responseE data desc = Except.error r) :
    validate_response data desc = r := by
  unfold validate_response
  rw [h]

lemma validateE_date_default (data : JObj) (desc : String)
    (d : List (String × JValue))
    (hlook : jlookup "date" data = some (JValue.obj d))
    (hparse : parseYMD (pyStr (jgetD d "value" (JValue.str ""))) = false) :
    ∀ r, (validate_responseE data desc = Except.ok r ∨
          validate_responseE data desc = Except.error r) →
      r.date = (defaultExtraction desc).date := by
  unfold validate_responseE
  cases h1 : stepAmount data (defaultExtraction desc) with
  | error v =>
      have hv : v = defaultExtraction desc := stepAmount_error h1
      subst hv
      simp only [vstep_error]
      rintro r (hr | hr)
      · exact absurd hr (by simp)
      · injection hr with hr
        subst hr
        rfl
  | ok v1 =>
      obtain ⟨_, _, _, hdt1⟩ := stepAmount_ok h1
      rw [vstep_ok]
      cases h2 : stepMerchant data v1 with
      | error v =>
          have hv : v = v1 := stepMerchant_error h2
          subst hv
          simp only [vstep_error]
          rintro r (hr | hr)
          · exact absurd hr (by simp)
          · injection hr with hr
            subst hr
            exact hdt1
      | ok v2 =>
          obtain ⟨_, _, _, hdt2⟩ := stepMerchant_ok h2
          rw [vstep_ok, stepDate_unparseable hlook hparse, vstep_ok]
          cases h4 : stepCategory data v2 with
          | error v =>
              have hv : v = v2 := stepCategory_error h4
              subst hv
              simp only [vstep_error]
              rintro r (hr | hr)
              · exact absurd hr (by simp)
              · injection hr with hr
                subst hr
                exact hdt2.trans hdt1
          | ok v4 =>
              obtain ⟨_, _, _, hdt4⟩ := stepCategory_ok h4
              rw [vstep_ok]
              cases h5 : stepLineItems data v4 with
              | error v =>
                  have hv : v = v4 := stepLineItems_error h5
                  subst hv
                  rintro r (hr | hr)
                  · exact absurd hr (by simp)
                  · injection hr with hr
                    subst hr
                    exact hdt4.trans (hdt2.trans hdt1)
              | ok v5 =>
                  obtain ⟨_, _, hdt5⟩ := stepLineItems_ok h5
                  rintro r (hr | hr)
                  · injection hr with hr
                    subst hr
                    exact hdt5.trans (hdt4.trans (hdt2.trans hdt1))
                  · exact absurd hr (by simp)

/-- C1: for every decoded JSON object, however malformed, the validator's
output has all six top-level fields (structurally guaranteed by
`ReceiptExtraction`), every confidence in `[0,1]`, and a category value in
the closed enum. -/
theorem validator_output_always_well_formed (data : JObj) (desc : String) :
    wfExtraction (validate_response data desc) := by
  cases h : validate_responseE data desc with
  | ok v =>
      rw [validate_response_of_ok h]
      exact ((validateE_master data desc).1 v h).1
  | error v =>
      rw [validate_response_of_error h]
      exact ((validateE_master data desc).2 v h).1

/-- C2 counterexample: on `cexC2data` the amount branch succeeds and then the
merchant branch raises (`float(None)`), yet the returned record keeps the
already-validated amount `⟨5, 1⟩` — it is not the fully-default
`ReceiptExtraction` the claim demands. -/
theorem validator_exception_fully_default_cex :
    validate_responseE cexC2data "t" = Except.error cexC2res ∧
    validate_response cexC2data "t" ≠ defaultExtraction "t" ∧
    (validate_response cexC2data "t").amount = ⟨5, 1⟩ := by
  refine ⟨rfl, ?_, rfl⟩
  decide

/-- C2 (amended): the validator never raises — any unexpected exception is
caught and the partially-validated record accumulated so far is returned:
fields validated before the failure are retained, `line_items` (the last
branch) is still empty, and the description is the original input text. -/
theorem validator_exception_returns_partial_state (data : JObj)
    (desc : String) (r : ReceiptExtraction)
    (h : validate_responseE data desc = Except.error r) :
    validate_response data desc = r ∧ r.line_items = [] ∧
    r.description = desc :=
  ⟨validate_response_of_error h, ((validateE_master data desc).2 r h).2.2,
   ((validateE_master data desc).2 r h).2.1⟩

/-- Witness for the amended C2 theorem at the concrete malformed reply. -/
theorem validator_exception_returns_partial_state_witness :
    validate_response cexC2data "t" = cexC2res ∧
    cexC2res.line_items = [] ∧ cexC2res.description = "t" :=
  validator_exception_returns_partial_state cexC2data "t" cexC2res rfl

/-- C4 counterexample: category value `"Cafe"` (outside the enum) with
confidence `2` validates to value `"Other"` with confidence `1` — the value
is overridden but the confidence is clamped, not preserved unchanged as the
claim states. -/
theorem category_confidence_not_preserved_cex :
    (validate_response cexC4data "t").category.value = "Other" ∧
    (validate_response cexC4data "t").category.confidence = 1 ∧
    (1 : ℚ) ≠ 2 := by
  refine ⟨rfl, rfl, ?_⟩
  norm_num

/-- C4 (amended): in the category branch, an input category value outside the
closed enum is forced to `"Other"` while its confidence is preserved up to
the standard `[0,1]` clamp applied to every confidence (so an in-range
confidence such as the spec's `0.9` passes through unchanged). -/
theorem category_unknown_forced_Other_confidence_clamped
    (data : JObj) (v : ReceiptExtraction) (c : List (String × JValue)) (q : ℚ)
    (hlook : jlookup "category" data = some (JValue.obj c))
    (hcat : pyStr (jgetD c "value" (JValue.str "Other")) ∉ valid_categories)
    (hconf : pyFloatE (jgetD c "confidence" (JValue.num 0)) = Except.ok q) :
    stepCategory data v =
      Except.ok { v with category := ⟨"Other", clamp01 q⟩ } ∧
    (0 ≤ q → q ≤ 1 → clamp01 q = q) := by
  constructor
  · unfold stepCategory
    rw [hlook]
    simp [hconf, hcat]
  · intro h0 h1
    unfold clamp01
    rw [max_eq_right h0, min_eq_right h1]

/-- Witness for the amended C4 theorem at the spec's own example
(`"Cafe"` with confidence `0.9`). -/
theorem category_unknown_forced_Other_witness :
    stepCategory cexC4wdata (defaultExtraction "t") =
      Except.ok { defaultExtraction "t" with
        category := ⟨"Other", clamp01 (9/10)⟩ } ∧
    (0 ≤ (9/10 : ℚ) → (9/10 : ℚ) ≤ 1 → clamp01 (9/10) = 9/10) :=
  category_unknown_forced_Other_confidence_clamped cexC4wdata
    (defaultExtraction "t")
    [("value", JValue.str "Cafe"), ("confidence", JValue.num (9/10))]
    (9/10) rfl (by decide) rfl

/-- C5: whenever the reply's date value does not parse as `YYYY-MM-DD`, the
validated date field is `{value: "", confidence: 0}` regardless of the
input's confidence (the whole pipeline leaves the default date in place). -/
theorem unparseable_date_field_reverts (data : JObj) (desc : String)
    (d : List (String × JValue))
    (hlook : jlookup "date" data = some (JValue.obj d))
    (hparse : parseYMD (pyStr (jgetD d "value" (JValue.str ""))) = false) :
    (validate_response data desc).date = ⟨"", 0⟩ := by
  cases h : validate_responseE data desc with
  | ok v =>
      rw [validate_response_of_ok h]
      exact validateE_date_default data desc d hlook hparse v (Or.inl h)
  | error v =>
      rw [validate_response_of_error h]
      exact validateE_date_default data desc d hlook hparse v (Or.inr h)

/-- Witness for C5 at the spec's own example (`"13/01/2024"` with
confidence `0.9`). -/
theorem unparseable_date_field_reverts_witness :
    (validate_response cexC5data "t").date = ⟨"", 0⟩ :=
  unparseable_date_field_reverts cexC5data "t"
    [("value", JValue.str "13/01/2024"), ("confidence", JValue.num (9/10))]
    rfl (by decide)

/-- C10: the validated description always equals the original input text
supplied alongside the object; a `description` key inside the reply is never
consulted. -/
theorem validator_description_equals_input (data : JObj) (desc : String) :
    (validate_response data desc).description = desc := by
  cases h : validate_responseE data desc with
  | ok v =>
      rw [validate_response_of_ok h]
      exact ((validateE_master data desc).1 v h).2
  | error v =>
      rw [validate_response_of_error h]
      exact ((validateE_master data desc).2 v h).2.1

/-- C3 counterexample: `update_category_interactive` accepts an in-enum
category together with an out-of-range confidence `2` and stores it
verbatim, so the persisted row violates the `[0,1]` invariant after a
successful write. -/
theorem write_paths_do_not_clamp_cex :
    rowOK sampleRow ∧
    update_category_interactive sampleRow "Meals" 2 =
      Except.ok (update_transaction_category_row sampleRow "Meals" 2) ∧
    ¬ rowOK (update_transaction_category_row sampleRow "Meals" 2) := by
  refine ⟨by decide, rfl, by decide⟩

/-- C3 (amended): the write paths copy confidences and category verbatim
(no clamping); the persisted invariant holds exactly when the caller
supplies in-range values — which the validator output does — and the
interactive category update additionally rejects categories outside the
enum. -/
theorem writes_preserve_invariant_for_in_range_inputs :
    (∀ (r : ReceiptExtraction) (genId : String), wfExtraction r →
        txnOK (log_receipt_transaction r genId)) ∧
    (∀ (t t' : TxnRow) (c : String) (conf : ℚ), rowOK t →
        0 ≤ conf → conf ≤ 1 →
        update_category_interactive t c conf = Except.ok t' → rowOK t') := by
  constructor
  · intro r genId hwf
    unfold wfExtraction at hwf
    unfold txnOK log_receipt_transaction
    exact ⟨hwf.1, hwf.2.1, hwf.2.2.2.1, hwf.2.2.1, hwf.2.2.2.2⟩
  · intro t t' c conf ht h0 h1 hup
    unfold update_category_interactive at hup
    split at hup
    · injection hup with hup
      subst hup
      unfold rowOK at ht ⊢
      unfold update_transaction_category_row
      exact ⟨ht.1, ht.2.1, ⟨h0, h1⟩, ht.2.2.2.1, by assumption⟩
    · exact absurd hup (by simp)

/-- Witness for the amended C3 theorem: a well-formed receipt insert and an
in-range category update both yield rows satisfying the invariant. -/
theorem writes_preserve_invariant_witness :
    txnOK (log_receipt_transaction sampleReceipt "id1") ∧
    rowOK (update_transaction_category_row sampleRow "Travel" (1/2)) :=
  ⟨writes_preserve_invariant_for_in_range_inputs.1 sampleReceipt "id1"
    (by decide),
   writes_preserve_invariant_for_in_range_inputs.2 sampleRow
    (update_transaction_category_row sampleRow "Travel" (1/2)) "Travel" (1/2)
    (by decide) (by norm_num) (by norm_num) rfl⟩

/-- C9: storage failure asymmetry — a failing insert propagates the error to
the caller (the record is not reported saved), a failing read swallows the
error and yields the empty result set; the success cases return the id and
the rows respectively. -/
theorem storage_failure_asymmetry (t : Transaction) (e : String)
    (rows : List TxnRow) :
    log_transaction t (Except.error e) = Except.error e ∧
    log_transaction t (Except.ok ()) = Except.ok t.id ∧
    get_transactions_as_dataframe (Except.error e) = [] ∧
    get_transactions_as_dataframe (Except.ok rows) = rows :=
  ⟨rfl, rfl, rfl, rfl⟩

/-- C6: on every read, each row's quality score equals the spec's weighted
sum `0.4*amount + 0.3*category + 0.2*merchant + 0.1*date` of the
confidences, hence `1` when all four are `1` and `0` when all four are
`0`. -/
theorem quality_score_weighted_sum (rows : List TxnRow)
    (p : TxnRow × ℚ) (hp : p ∈ addQualityScores rows) :
    p.2 = 0.4 * p.1.amount_confidence + 0.3 * p.1.category_confidence +
      0.2 * p.1.merchant_confidence + 0.1 * p.1.date_confidence ∧
    (p.1.amount_confidence = 1 → p.1.category_confidence = 1 →
      p.1.merchant_confidence = 1 → p.1.date_confidence = 1 → p.2 = 1) ∧
    (p.1.amount_confidence = 0 → p.1.category_confidence = 0 →
      p.1.merchant_confidence = 0 → p.1.date_confidence = 0 → p.2 = 0) := by
  unfold addQualityScores at hp
  obtain ⟨t, _, rfl⟩ := List.mem_map.mp hp
  refine ⟨?_, ?_, ?_⟩
  · unfold quality_score
    dsimp only
    ring
  · intro h1 h2 h3 h4
    dsimp only at h1 h2 h3 h4 ⊢
    unfold quality_score
    rw [h1, h2, h3, h4]
    norm_num
  · intro h1 h2 h3 h4
    dsimp only at h1 h2 h3 h4 ⊢
    unfold quality_score
    rw [h1, h2, h3, h4]
    norm_num

/-- Witness for C6 at a concrete all-ones row of `sampleRows`. -/
theorem quality_score_weighted_sum_witness :
    (sampleRow, quality_score sampleRow).2 =
      0.4 * (sampleRow, quality_score sampleRow).1.amount_confidence +
      0.3 * (sampleRow, quality_score sampleRow).1.category_confidence +
      0.2 * (sampleRow, quality_score sampleRow).1.merchant_confidence +
      0.1 * (sampleRow, quality_score sampleRow).1.date_confidence ∧
    ((sampleRow, quality_score sampleRow).1.amount_confidence = 1 →
      (sampleRow, quality_score sampleRow).1.category_confidence = 1 →
      (sampleRow, quality_score sampleRow).1.merchant_confidence = 1 →
      (sampleRow, quality_score sampleRow).1.date_confidence = 1 →
      (sampleRow, quality_score sampleRow).2 = 1) ∧
    ((sampleRow, quality_score sampleRow).1.amount_confidence = 0 →
      (sampleRow, quality_score sampleRow).1.category_confidence = 0 →
      (sampleRow, quality_score sampleRow).1.merchant_confidence = 0 →
      (sampleRow, quality_score sampleRow).1.date_confidence = 0 →
      (sampleRow, quality_score sampleRow).2 = 0) :=
  quality_score_weighted_sum sampleRows (sampleRow, quality_score sampleRow)
    (by simp [addQualityScores, sampleRows])

/-- C7: the questionable-transactions query returns exactly the rows where
at least one of the amount / category / merchant confidences is strictly
below the threshold (as a multiset: a permutation of the filtered rows, and
membership is characterized), sorted ascending by `amount_confidence`. -/
theorem questionable_exact_rows_sorted (rows : List TxnRow) (threshold : ℚ) :
    (get_questionable_transactions rows threshold).Perm
      (rows.filter (questionableFilter threshold)) ∧
    List.Sorted
      (fun a b : TxnRow => a.amount_confidence ≤ b.amount_confidence)
      (get_questionable_transactions rows threshold) ∧
    (∀ t : TxnRow, t ∈ get_questionable_transactions rows threshold ↔
      t ∈ rows ∧ (t.amount_confidence < threshold ∨
        t.category_confidence < threshold ∨
        t.merchant_confidence < threshold)) := by
  have hperm : (get_questionable_transactions rows threshold).Perm
      (rows.filter (questionableFilter threshold)) :=
    List.mergeSort_perm (rows.filter (questionableFilter threshold)) _
  refine ⟨hperm, ?_, ?_⟩
  · have hs := @List.sorted_mergeSort TxnRow
      (fun a b : TxnRow =>
        decide (a.amount_confidence ≤ b.amount_confidence))
      (fun a b c hab hbc => by
        simp only [decide_eq_true_eq] at *
        exact le_trans hab hbc)
      (fun a b => by
        simpa using le_total a.amount_confidence b.amount_confidence)
      (rows.filter (questionableFilter threshold))
    exact hs.imp (fun hab => by simpa using hab)
  · intro t
    rw [hperm.mem_iff, List.mem_filter]
    unfold questionableFilter
    simp [decide_eq_true_eq, or_assoc]

lemma groupKeys_mem_iff (df : List TxnRow) (f : TxnRow → String)
    (c : String) : c ∈ groupKeys df f ↔ ∃ t, t ∈ df ∧ f t = c := by
  unfold groupKeys
  rw [List.mem_dedup, List.mem_map]

lemma mem_groupWeightedSums_iff (df : List TxnRow) (f : TxnRow → String)
    (c : String) (s : ℚ) :
    (c, s) ∈ groupWeightedSums df f ↔ c ∈ groupKeys df f ∧
      s = ((df.filter (fun t => f t = c)).map weighted_amount).sum := by
  unfold groupWeightedSums
  rw [List.mem_map]
  constructor
  · rintro ⟨k, hk, heq⟩
    rw [Prod.mk.injEq] at heq
    obtain ⟨h1, h2⟩ := heq
    subst h1
    exact ⟨hk, h2.symm⟩
  · rintro ⟨hk, rfl⟩
    exact ⟨c, hk, rfl⟩

/-- C8: for a nonempty transaction list and timeframe week/month/quarter, the
spending analytics keep exactly the rows with `date ≥ now − window` (window
7/30/90 days), weight each kept row by `amount * amount_confidence`, and
return the per-category sums, the per-merchant sums restricted to the ten
largest in descending order, and the grand total. -/
theorem spending_analytics_filters_weights_aggregates
    (rows : List TxnRow) (tf : String) (now : ℤ) (w : ℤ) (df : List TxnRow)
    (hne : rows ≠ [])
    (htf : tf = "week" ∨ tf = "month" ∨ tf = "quarter")
    (hw : w = if tf = "week" then 7 else if tf = "month" then 30 else 90)
    (hdf : df = rows.filter (fun t => decide (now - w ≤ t.date))) :
    ∃ a : Analytics, get_spending_analytics rows tf now = some a ∧
      a.timeframe = tf ∧
      a.total = (df.map (fun t => t.amount * t.amount_confidence)).sum ∧
      (∀ p : String × ℚ, p ∈ a.by_category →
        p.2 = ((df.filter (fun t => t.category = p.1)).map
          (fun t => t.amount * t.amount_confidence)).sum) ∧
      (∀ c : String, (∃ t, t ∈ df ∧ t.category = c) ↔
        ∃ s : ℚ, (c, s) ∈ a.by_category) ∧
      (∀ p : String × ℚ, p ∈ a.by_merchant →
        p.2 = ((df.filter (fun t => t.merchant = p.1)).map
          (fun t => t.amount * t.amount_confidence)).sum ∧
        ∃ t, t ∈ df ∧ t.merchant = p.1) ∧
      List.Sorted (fun p q : String × ℚ => q.2 ≤ p.2) a.by_merchant ∧
      a.by_merchant.length =
        min 10 (groupKeys df (fun t => t.merchant)).length ∧
      (∀ m : String, (∃ t, t ∈ df ∧ t.merchant = m) →
        (∀ s : ℚ, (m, s) ∉ a.by_merchant) →
        ∀ p : String × ℚ, p ∈ a.by_merchant →
          ((df.filter (fun t => t.merchant = m)).map
            (fun t => t.amount * t.amount_confidence)).sum ≤ p.2) := by
  have hE : rows.isEmpty = false := by
    cases rows with
    | nil => exact absurd rfl hne
    | cons a l => rfl
  have hTF : timeframeFilter rows tf now = df := by
    rcases htf with rfl | rfl | rfl
    · have hw' : w = 7 := by
        rw [hw]
        decide
      subst hw'
      rw [hdf]
      rfl
    · have hw' : w = 30 := by
        rw [hw]
        decide
      subst hw'
      rw [hdf]
      rfl
    · have hw' : w = 90 := by
        rw [hw]
        decide
      subst hw'
      rw [hdf]
      rfl
  have hget : get_spending_analytics rows tf now = some
      { by_category := groupWeightedSums df (fun t => t.category)
        by_merchant :=
          ((groupWeightedSums df (fun t => t.merchant)).mergeSort
            (fun p q => decide (q.2 ≤ p.2))).take 10
        total := (df.map weighted_amount).sum
        timeframe := tf } := by
    unfold get_spending_analytics
    rw [hE, hTF]
    simp
  refine ⟨_, hget, rfl, rfl, ?_, ?_, ?_, ?_, ?_, ?_⟩
  · intro p hp
    dsimp only at hp
    obtain ⟨c, s⟩ := p
    obtain ⟨_, hs⟩ := (mem_groupWeightedSums_iff df _ c s).mp hp
    exact hs
  · intro c
    dsimp only
    rw [← groupKeys_mem_iff df (fun t => t.category) c]
    constructor
    · intro hk
      exact ⟨_, (mem_groupWeightedSums_iff df _ c _).mpr ⟨hk, rfl⟩⟩
    · rintro ⟨s, hs⟩
      exact ((mem_groupWeightedSums_iff df _ c s).mp hs).1
  · intro p hp
    dsimp only at hp
    obtain ⟨c, s⟩ := p
    have hp' : (c, s) ∈ (groupWeightedSums df (fun t => t.merchant)).mergeSort
        (fun p q => decide (q.2 ≤ p.2)) := List.mem_of_mem_take hp
    have hp'' : (c, s) ∈ groupWeightedSums df (fun t => t.merchant) :=
      (List.mergeSort_perm (groupWeightedSums df (fun t => t.merchant))
        (fun p q => decide (q.2 ≤ p.2))).mem_iff.mp hp'
    obtain ⟨hk, hs⟩ := (mem_groupWeightedSums_iff df _ c s).mp hp''
    exact ⟨hs, (groupKeys_mem_iff df _ c).mp hk⟩
  · dsimp only
    have hs := @List.sorted_mergeSort (String × ℚ)
      (fun p q : String × ℚ => decide (q.2 ≤ p.2))
      (fun a b c hab hbc => by
        simp only [decide_eq_true_eq] at *
        exact le_trans hbc hab)
      (fun a b => by simpa using le_total b.2 a.2)
      (groupWeightedSums df (fun t => t.merchant))
    have hsR : List.Sorted (fun p q : String × ℚ => q.2 ≤ p.2)
        ((groupWeightedSums df (fun t => t.merchant)).mergeSort
          (fun p q => decide (q.2 ≤ p.2))) :=
      hs.imp (fun hab => by simpa using hab)
    exact List.Pairwise.sublist (List.take_sublist 10 _) hsR
  · dsimp only
    rw [List.length_take,
      (List.mergeSort_perm (groupWeightedSums df (fun t => t.merchant))
        (fun p q => decide (q.2 ≤ p.2))).length_eq]
    unfold groupWeightedSums
    rw [List.length_map]
  · intro m hm hnot p hp
    dsimp only at hnot hp ⊢
    have hkm : m ∈ groupKeys df (fun t => t.merchant) :=
      (groupKeys_mem_iff df _ m).mpr hm
    have hmS : (m, ((df.filter (fun t => t.merchant = m)).map
        weighted_amount).sum) ∈ groupWeightedSums df (fun t => t.merchant) :=
      (mem_groupWeightedSums_iff df _ m _).mpr ⟨hkm, rfl⟩
    have hmSl : (m, ((df.filter (fun t => t.merchant = m)).map
        weighted_amount).sum) ∈
        (groupWeightedSums df (fun t => t.merchant)).mergeSort
          (fun p q => decide (q.2 ≤ p.2)) :=
      (List.mergeSort_perm _ _).mem_iff.mpr hmS
    have hsplit := List.mem_append.mp
      ((List.take_append_drop 10
        ((groupWeightedSums df (fun t => t.merchant)).mergeSort
          (fun p q => decide (q.2 ≤ p.2)))).symm ▸ hmSl)
    rcases hsplit with htk | hdp
    · exact absurd htk (hnot _)
    · have hs := @List.sorted_mergeSort (String × ℚ)
        (fun p q : String × ℚ => decide (q.2 ≤ p.2))
        (fun a b c hab hbc => by
          simp only [decide_eq_true_eq] at *
          exact le_trans hbc hab)
        (fun a b => by simpa using le_total b.2 a.2)
        (groupWeightedSums df (fun t => t.merchant))
      have hsR : List.Sorted (fun p q : String × ℚ => q.2 ≤ p.2)
          ((groupWeightedSums df (fun t => t.merchant)).mergeSort
            (fun p q => decide (q.2 ≤ p.2))) :=
        hs.imp (fun hab => by simpa using hab)
      exact hsR.rel_of_mem_take_of_mem_drop hp hdp

/-- Witness for C8: concrete two-row list, timeframe `"week"`, `now = 55`
(so only the `date = 50` row is in the window). -/
theorem spending_analytics_witness :
    ∃ a : Analytics,
      get_spending_analytics sampleRows "week" 55 = some a ∧
      a.timeframe = "week" ∧
      a.total = ((sampleRows.filter (fun t => decide (55 - 7 ≤ t.date))).map
        (fun t => t.amount * t.amount_confidence)).sum ∧
      (∀ p : String × ℚ, p ∈ a.by_category →
        p.2 = (((sampleRows.filter
            (fun t => decide (55 - 7 ≤ t.date))).filter
          (fun t => t.category = p.1)).map
          (fun t => t.amount * t.amount_confidence)).sum) ∧
      (∀ c : String,
        (∃ t, t ∈ sampleRows.filter (fun t => decide (55 - 7 ≤ t.date)) ∧
          t.category = c) ↔ ∃ s : ℚ, (c, s) ∈ a.by_category) ∧
      (∀ p : String × ℚ, p ∈ a.by_merchant →
        p.2 = (((sampleRows.filter
            (fun t => decide (55 - 7 ≤ t.date))).filter
          (fun t => t.merchant = p.1)).map
          (fun t => t.amount * t.amount_confidence)).sum ∧
        ∃ t, t ∈ sampleRows.filter (fun t => decide (55 - 7 ≤ t.date)) ∧
          t.merchant = p.1) ∧
      List.Sorted (fun p q : String × ℚ => q.2 ≤ p.2) a.by_merchant ∧
      a.by_merchant.length = min 10 (groupKeys
        (sampleRows.filter (fun t => decide (55 - 7 ≤ t.date)))
        (fun t => t.merchant)).length ∧
      (∀ m : String,
        (∃ t, t ∈ sampleRows.filter (fun t => decide (55 - 7 ≤ t.date)) ∧
          t.merchant = m) →
        (∀ s : ℚ, (m, s) ∉ a.by_merchant) →
        ∀ p : String × ℚ, p ∈ a.by_merchant →
          (((sampleRows.filter
              (fun t => decide (55 - 7 ≤ t.date))).filter
            (fun t => t.merchant = m)).map
            (fun t => t.amount * t.amount_confidence)).sum ≤ p.2) :=
  spending_analytics_filters_weights_aggregates sampleRows "week" 55 7
    (sampleRows.filter (fun t => decide (55 - 7 ≤ t.date)))
    (by simp [sampleRows]) (Or.inl rfl) (by decide) rfl
